import Mathlib

/-!
# Ingestion and query pipeline of the MQTT backend service

A shallow embedding of `internal/types`, `internal/subscribe`, `internal/database` and
`internal/server` (routes), followed by the properties of the ingestion handler, the three
storage reads and the two range handlers.

Modelling conventions.

* A `float64` / SQL `FLOAT` value is represented by the rational number it denotes.  The
  steps whose result depends on binary floating point are not computed here but taken as
  given: decoding a decimal numeral into a `float64` (`Stdlib.parseFloat`), the engine's
  `AVG` over a `float8` column and its cast of a `float8` to `numeric` (`Engine`).
* A `time.Time` is an instant together with the zone offset of its location.  A SQL
  `TIMESTAMP` (without time zone) is a wall-clock reading in whole microseconds.  The driver
  sends a `time.Time` argument as the wall-clock reading in the value's own location and
  reads a `TIMESTAMP` back as that reading in UTC.
* The table `device_data` is a list of rows in storage order.  Only `InsertDeviceData` writes
  to it and it always writes four non-NULL values, so no column of a row is NULL.
* Functions of the Go standard library that the source calls but that are not part of the
  repository (key folding of `encoding/json`, RFC 3339 parsing of `time`, `strconv`) are
  parameters, collected in `Stdlib`.
-/

namespace MqttBackend

/-! ## internal/types -/

/-- Value of Go type `time.Time`: the instant, in nanoseconds since the zero instant
(0001-01-01 00:00:00 UTC), and the offset east of UTC, in seconds, of its location. -/
structure Time where
  instant : Int
  offset : Int
deriving DecidableEq

/-- Go method `time.Time.IsZero`: the instant is the zero instant, whatever the location. -/
def Time.IsZero (t : Time) : Bool := t.instant == 0

/-- Go struct `types.DeviceData`. -/
structure DeviceData where
  DeviceID : String
  Humidity : ℚ
  Temperature : ℚ
  Timestamp : Time
deriving DecidableEq

/-- Go struct `types.AverageData`. -/
structure AverageData where
  AverageHumidity : ℚ
  AverageTemperature : ℚ
deriving DecidableEq

/-- Zero value of `types.DeviceData`, the state of `var data types.DeviceData`. -/
def DeviceData.zero : DeviceData := ⟨"", 0, 0, ⟨0, 0⟩⟩

/-- Zero value of `types.AverageData`, the state of `var avgData types.AverageData`. -/
def AverageData.zero : AverageData := ⟨0, 0⟩

/-! ## internal/database -/

/-- Kinds of Go `error` values that the modelled code paths can produce. -/
inductive Err where
  /-- The statement did not complete: connection or driver failure. -/
  | conn
  /-- The statement names relation `device_data`, which has not been created. -/
  | undefinedTable
  /-- The engine reports a floating-point value out of range while running the statement. -/
  | outOfRange
  /-- Error of `Scan` storing SQL NULL into a `float64` destination. -/
  | scanNull
  /-- Error of `Scan` converting a column value into a `float64` destination. -/
  | scanConvert
  /-- Error returned by `json.Unmarshal`. -/
  | unmarshal
deriving DecidableEq

/-- Go standard library behaviour used by the source and taken as given. -/
structure Stdlib where
  /-- Case folding applied by `encoding/json` when an object key has no exact match. -/
  foldName : String → String
  /-- Method `time.Time.UnmarshalJSON` on the contents of a JSON string. -/
  unmarshalTime : String → Option Time
  /-- The call `time.Parse(time.RFC3339, s)`; `none` stands for a non-nil error. -/
  parseRFC3339 : String → Option Time
  /-- The call `strconv.ParseFloat(s, 64)` on a numeral denoting the given number: the
  `float64` it yields, `none` for a non-nil error. -/
  parseFloat : ℚ → Option ℚ

/-- Floating-point behaviour of the database engine, taken as given. -/
structure Engine where
  /-- Aggregate `AVG` over a non-empty `float8` column, given as its first value and the
  remaining values in scan order; an error when the engine reports an overflow. -/
  avgFloat8 : ℚ → List ℚ → Except Err ℚ
  /-- The cast of a `float8` to `numeric`. -/
  float8ToNumeric : ℚ → ℚ

/-- A row of table `device_data (device_id TEXT, humidity FLOAT, temperature FLOAT, timestamp
TIMESTAMP)`; `timestamp` is a wall-clock reading in microseconds since 0001-01-01 00:00:00. -/
structure Row where
  device_id : String
  humidity : ℚ
  temperature : ℚ
  timestamp : Int
deriving DecidableEq

/-- A `time.Time` argument as the driver sends it for a `TIMESTAMP` parameter: the wall-clock
reading in the location of the value, without the zone, cut to whole microseconds. -/
def sqlTimestamp (t : Time) : Int := (t.instant + t.offset * 1000000000) / 1000

/-- A `TIMESTAMP` column as `Scan` stores it into a `time.Time`: that reading, in UTC. -/
def Time.ofTimestamp (ts : Int) : Time := ⟨ts * 1000, 0⟩

/-- State behind the `*sql.DB` handle.  `faults` is the fate of the coming statements, one
entry per statement sent (`true`: that statement fails; an exhausted list: no more failures).
`device_data` is the table in storage order, `none` while the relation does not exist. -/
structure DB where
  faults : List Bool
  device_data : Option (List Row)

/-- One statement is sent: consume the next entry of the fault schedule. -/
def DB.send (db : DB) : Bool × DB :=
  match db.faults with
  | [] => (false, db)
  | f :: fs => (f, { db with faults := fs })

/-- SQL text `CREATE TABLE IF NOT EXISTS device_data (...)` run through `Exec`. -/
def execCreateTable (db : DB) : Option Err × DB :=
  match db.send with
  | (true, db1) => (some Err.conn, db1)
  | (false, db1) => (none, { db1 with device_data := some (db1.device_data.getD []) })

/-- A `SELECT ... FROM device_data` run through `Query` / `QueryRow`; `sel` is the meaning of
the statement on the rows of the table, an error when the engine aborts the statement. -/
def querySelect {α : Type} (sel : List Row → Except Err α) (db : DB) : Except Err α × DB :=
  match db.send with
  | (true, db1) => (Except.error Err.conn, db1)
  | (false, db1) =>
    match db1.device_data with
    | none => (Except.error Err.undefinedTable, db1)
    | some rows => (sel rows, db1)

/-- The call `rows.Scan(&d.DeviceID, &d.Humidity, &d.Temperature, &d.Timestamp)` on a row. -/
def scanRow (row : Row) : DeviceData :=
  ⟨row.device_id, row.humidity, row.temperature, Time.ofTimestamp row.timestamp⟩

/-- The loop `for rows.Next() ... data = append(data, d)` over a result set. -/
def scanRows (rows : List Row) : List DeviceData :=
  rows.foldl (fun data row => data ++ [scanRow row]) []

/-- SQL `x BETWEEN lo AND hi`, that is `x >= lo AND x <= hi`. -/
def between (x lo hi : Int) : Bool := decide (lo ≤ x) && decide (x ≤ hi)

/-- The clause `WHERE device_id = $1 AND timestamp BETWEEN $2 AND $3` on the parameter
values as the engine receives them. -/
def whereDeviceBetween (p1 : String) (p2 p3 : Int) (row : Row) : Bool :=
  decide (row.device_id = p1) && between row.timestamp p2 p3

/-- Sort order of `ORDER BY device_id, timestamp DESC`: `device_id` ascending (text compared
character by character), then `timestamp` descending.  No other column is compared. -/
def orderByDeviceTimestampDesc (a b : Row) : Prop :=
  a.device_id.toList < b.device_id.toList ∨ (a.device_id = b.device_id ∧ b.timestamp ≤ a.timestamp)

instance : DecidableRel orderByDeviceTimestampDesc := fun a b =>
  inferInstanceAs (Decidable
    (a.device_id.toList < b.device_id.toList
      ∨ (a.device_id = b.device_id ∧ b.timestamp ≤ a.timestamp)))

/-- The `ORDER BY` step: the rows sorted by the two sort keys; rows that agree on both keys
stay in the order in which the table delivers them. -/
def orderBy (rows : List Row) : List Row :=
  rows.insertionSort orderByDeviceTimestampDesc

/-- The `DISTINCT ON (device_id)` step over sorted rows: a row is emitted unless its
`device_id` equals that of the row before it (`prev`). -/
def distinctOn : Option String → List Row → List Row
  | _, [] => []
  | prev, r :: rest =>
    if prev = some r.device_id then distinctOn prev rest
    else r :: distinctOn (some r.device_id) rest

/-- Meaning of `SELECT DISTINCT ON (device_id) device_id, humidity, temperature, timestamp
FROM device_data ORDER BY device_id, timestamp DESC`. -/
def selectLatest (rows : List Row) : List Row :=
  distinctOn none (orderBy rows)

/-- Meaning of `SELECT device_id, humidity, temperature, timestamp FROM device_data
WHERE device_id = $1 AND timestamp BETWEEN $2 AND $3`. -/
def selectHistory (p1 : String) (p2 p3 : Int) (rows : List Row) : List Row :=
  rows.filter (whereDeviceBetween p1 p2 p3)

/-- SQL aggregate `AVG` over a `float8` column: NULL (`none`) over no rows, otherwise the
engine's average. -/
def sqlAvg (eng : Engine) (xs : List ℚ) : Except Err (Option ℚ) :=
  match xs with
  | [] => Except.ok none
  | x :: rest =>
    match eng.avgFloat8 x rest with
    | Except.error e => Except.error e
    | Except.ok v => Except.ok (some v)

/-- SQL `ROUND(v, 2)` on `numeric`: nearest multiple of 1/100, halves away from zero. -/
def sqlRound2 (v : ℚ) : ℚ :=
  if 0 ≤ v then (⌊v * 100 + 1 / 2⌋ : ℚ) / 100 else -((⌊-v * 100 + 1 / 2⌋ : ℚ) / 100)

/-- The expression `ROUND(CAST(a AS numeric), 2)` on a nullable `float8` value. -/
def roundCast (eng : Engine) (a : Option ℚ) : Option ℚ :=
  a.map (fun v => sqlRound2 (eng.float8ToNumeric v))

/-- Meaning of `SELECT ROUND(CAST(AVG(humidity) AS numeric), 2), ROUND(CAST(AVG(temperature)
AS numeric), 2) FROM device_data WHERE device_id = $1 AND timestamp BETWEEN $2 AND $3`: one
row of two nullable `numeric` columns, or an error of the engine. -/
def selectAverage (eng : Engine) (p1 : String) (p2 p3 : Int) (rows : List Row) :
    Except Err (Option ℚ × Option ℚ) :=
  match sqlAvg eng ((rows.filter (whereDeviceBetween p1 p2 p3)).map Row.humidity) with
  | Except.error e => Except.error e
  | Except.ok h =>
    match sqlAvg eng ((rows.filter (whereDeviceBetween p1 p2 p3)).map Row.temperature) with
    | Except.error e => Except.error e
    | Except.ok t => Except.ok (roundCast eng h, roundCast eng t)

/-- Method `(*service).GetLatestData`.  The first component is `none` when `log.Fatal` ends
the process, otherwise the returned pair `(data, err)`. -/
def service.GetLatestData (db : DB) : Option (List DeviceData × Option Err) × DB :=
  match execCreateTable db with
  | (some _, db1) => (none, db1)
  | (none, db1) =>
    match querySelect (fun rows => Except.ok (selectLatest rows)) db1 with
    | (Except.error e, db2) => (some ([], some e), db2)
    | (Except.ok rows, db2) => (some (scanRows rows, none), db2)

/-- Method `(*service).GetHistoryData`, returning the pair `(data, err)`.  The three
arguments are sent as the parameters `$1`, `$2`, `$3`. -/
def service.GetHistoryData (deviceID : String) (startDate endDate : Time) (db : DB) :
    (List DeviceData × Option Err) × DB :=
  match querySelect (fun rows => Except.ok
      (selectHistory deviceID (sqlTimestamp startDate) (sqlTimestamp endDate) rows)) db with
  | (Except.error e, db1) => (([], some e), db1)
  | (Except.ok rows, db1) => ((scanRows rows, none), db1)

/-- Storing one `numeric` column into a `float64` destination: NULL cannot be stored, a
number arrives as a decimal numeral and goes through `strconv.ParseFloat`. -/
def scanFloat (lib : Stdlib) (col : Option ℚ) : Except Err ℚ :=
  match col with
  | none => Except.error Err.scanNull
  | some v =>
    match lib.parseFloat v with
    | none => Except.error Err.scanConvert
    | some f => Except.ok f

/-- The call `row.Scan(&avgData.AverageHumidity, &avgData.AverageTemperature)`: destinations
are filled left to right, up to the first column that cannot be stored. -/
def scanAverage (lib : Stdlib) (row : Option ℚ × Option ℚ) (avgData : AverageData) :
    AverageData × Option Err :=
  match scanFloat lib row.1 with
  | Except.error e => (avgData, some e)
  | Except.ok h =>
    match scanFloat lib row.2 with
    | Except.error e => ({ avgData with AverageHumidity := h }, some e)
    | Except.ok t => ({ AverageHumidity := h, AverageTemperature := t }, none)

/-- Method `(*service).GetAverageData`, returning the pair `(avgData, err)`.  The three
arguments are sent as the parameters `$1`, `$2`, `$3`. -/
def service.GetAverageData (lib : Stdlib) (eng : Engine) (deviceID : String)
    (startDate endDate : Time) (db : DB) : (AverageData × Option Err) × DB :=
  match querySelect
      (selectAverage eng deviceID (sqlTimestamp startDate) (sqlTimestamp endDate)) db with
  | (Except.error e, db1) => ((AverageData.zero, some e), db1)
  | (Except.ok row, db1) => (scanAverage lib row AverageData.zero, db1)

/-- Method `(*service).InsertDeviceData`: one `INSERT INTO device_data ... VALUES ($1, $2, $3,
$4)` with the four fields of `data` as parameters, returning `err`. -/
def service.InsertDeviceData (data : DeviceData) (db : DB) : Option Err × DB :=
  match db.send with
  | (true, db1) => (some Err.conn, db1)
  | (false, db1) =>
    match db1.device_data with
    | none => (some Err.undefinedTable, db1)
    | some rows =>
      (none, { db1 with device_data := some (rows ++
        [⟨data.DeviceID, data.Humidity, data.Temperature, sqlTimestamp data.Timestamp⟩]) })

/-- A reachable store holding `rows`: no scheduled failure, relation present. -/
def DB.holding (rows : List Row) : DB := { faults := [], device_data := some rows }

/-! ## The `database.Service` interface -/

/-- The methods of interface `database.Service` called by the handlers modelled below, over
any implementation with state `σ` (the real store or a recording stub). -/
structure Service (σ : Type) where
  GetHistoryData : String → Time → Time → σ → (List DeviceData × Option Err) × σ
  GetAverageData : String → Time → Time → σ → (AverageData × Option Err) × σ
  InsertDeviceData : DeviceData → σ → Option Err × σ

/-- The implementation `*service` returned by `database.New`. -/
def service.asService (lib : Stdlib) (eng : Engine) : Service DB :=
  { GetHistoryData := service.GetHistoryData
    GetAverageData := service.GetAverageData lib eng
    InsertDeviceData := service.InsertDeviceData }

/-- One invocation of a method of `database.Service`, with its arguments. -/
inductive Call where
  | insert (data : DeviceData)
  | history (deviceID : String) (startDate endDate : Time)
  | average (deviceID : String) (startDate endDate : Time)
deriving DecidableEq

/-! ## internal/subscribe -/

/-- A JSON value; a number is given by the rational its numeral denotes. -/
inductive Json where
  | null
  | bool (b : Bool)
  | num (q : ℚ)
  | str (s : String)
  | arr (items : List Json)
  | obj (members : List (String × Json))

/-- The fields of `types.DeviceData`. -/
inductive Field where
  | deviceID
  | humidity
  | temperature
  | timestamp
deriving DecidableEq

/-- The `json:"..."` tags of `types.DeviceData`, in declaration order. -/
def fieldTags : List (String × Field) :=
  [("device_id", Field.deviceID), ("humidity", Field.humidity),
   ("temperature", Field.temperature), ("timestamp", Field.timestamp)]

/-- Field selected by an object key: an exact match of the tag is preferred, otherwise the
first tag equal to the key under case folding. -/
def findField (lib : Stdlib) (key : String) : Option Field :=
  match fieldTags.find? (fun p => p.1 == key) with
  | some p => some p.2
  | none => (fieldTags.find? (fun p => lib.foldName p.1 == lib.foldName key)).map Prod.snd

/-- Decoding of one member value into its field.  JSON `null` leaves the field untouched; a
value of the wrong JSON type, a number out of the range of `float64`, or a string that is
not a timestamp, is an error. -/
def setField (lib : Stdlib) (data : DeviceData) (f : Field) (v : Json) : Except Err DeviceData :=
  match f, v with
  | _, Json.null => Except.ok data
  | Field.deviceID, Json.str s => Except.ok { data with DeviceID := s }
  | Field.humidity, Json.num q =>
    match lib.parseFloat q with
    | some x => Except.ok { data with Humidity := x }
    | none => Except.error Err.unmarshal
  | Field.temperature, Json.num q =>
    match lib.parseFloat q with
    | some x => Except.ok { data with Temperature := x }
    | none => Except.error Err.unmarshal
  | Field.timestamp, Json.str s =>
    match lib.unmarshalTime s with
    | some t => Except.ok { data with Timestamp := t }
    | none => Except.error Err.unmarshal
  | _, _ => Except.error Err.unmarshal

/-- Decoding of the members of a JSON object into `data`, in order; keys that select no
field are skipped.  A decoding error makes the whole call fail (the handler never looks at
`data` after a failed call). -/
def unmarshalObject (lib : Stdlib) : List (String × Json) → DeviceData → Except Err DeviceData
  | [], data => Except.ok data
  | (k, v) :: rest, data =>
    match findField lib k with
    | none => unmarshalObject lib rest data
    | some f =>
      match setField lib data f v with
      | Except.error e => Except.error e
      | Except.ok data1 => unmarshalObject lib rest data1

/-- The call `json.Unmarshal(payload, &data)`.  The payload is given by the JSON value its
bytes denote, `none` when the bytes are not well-formed JSON. -/
def jsonUnmarshal (lib : Stdlib) (payload : Option Json) (data : DeviceData) :
    Except Err DeviceData :=
  match payload with
  | none => Except.error Err.unmarshal
  | some Json.null => Except.ok data
  | some (Json.obj members) => unmarshalObject lib members data
  | some _ => Except.error Err.unmarshal

/-- An `mqtt.Message`: topic and payload. -/
structure Message where
  Topic : String
  Payload : Option Json

/-- Lines written by `messagePubHandler` through `fmt` and `log`. -/
inductive LogLine where
  | received
  | unmarshalError (e : Err)
  | missingFields
  | insertError (e : Err)
  | inserted (data : DeviceData)
  | unknownTopic (topic : String)

/-- What one run of `messagePubHandler` did: the `database.Service` calls it made, in order,
the lines it wrote, and the state of the service afterwards. -/
structure Handled (σ : Type) where
  calls : List Call
  logs : List LogLine
  db : σ

/-- Method `(*Service).messagePubHandler`.  `mqttTopic` is `os.Getenv("MQTT_TOPIC")`. -/
def messagePubHandler {σ : Type} (lib : Stdlib) (s : Service σ) (mqttTopic : String)
    (msg : Message) (st : σ) : Handled σ :=
  if msg.Topic = mqttTopic then
    match jsonUnmarshal lib msg.Payload DeviceData.zero with
    | Except.error e => ⟨[], [LogLine.received, LogLine.unmarshalError e], st⟩
    | Except.ok data =>
      if data.DeviceID = "" ∨ data.Humidity = 0 ∨ data.Temperature = 0
          ∨ Time.IsZero data.Timestamp = true then
        ⟨[], [LogLine.received, LogLine.missingFields], st⟩
      else
        match s.InsertDeviceData data st with
        | (some e, st1) => ⟨[Call.insert data], [LogLine.received, LogLine.insertError e], st1⟩
        | (none, st1) => ⟨[Call.insert data], [LogLine.received, LogLine.inserted data], st1⟩
  else
    ⟨[], [LogLine.received, LogLine.unknownTopic msg.Topic], st⟩

/-! ## internal/server -/

/-- Query parameters of a request, as `r.URL.Query().Get` yields them (absent: empty). -/
structure Request where
  device_id : String
  start : String
  stop : String

/-- What a handler wrote to the `http.ResponseWriter`. -/
inductive Body where
  | text (e : String)
  | failure (e : Err)
  | records (data : List DeviceData)
  | average (data : AverageData)

/-- Status code and body of a response. -/
structure Response where
  status : Nat
  body : Body

/-- What one run of a route handler did: response, `database.Service` calls, final state. -/
structure Served (σ : Type) where
  response : Response
  calls : List Call
  db : σ

/-- Constant `http.StatusBadRequest`. -/
def StatusBadRequest : Nat := 400

/-- Constant `http.StatusInternalServerError`. -/
def StatusInternalServerError : Nat := 500

/-- Constant `http.StatusOK`, the status of a response whose header was never written. -/
def StatusOK : Nat := 200

/-- Method `(*Server).GetHistoryData`; `req.stop` is the query parameter `end`. -/
def Server.GetHistoryData {σ : Type} (lib : Stdlib) (s : Service σ) (req : Request) (st : σ) :
    Served σ :=
  match lib.parseRFC3339 req.start with
  | none => ⟨⟨StatusBadRequest, Body.text "Invalid start date format"⟩, [], st⟩
  | some startDate =>
    match lib.parseRFC3339 req.stop with
    | none => ⟨⟨StatusBadRequest, Body.text "Invalid end date format"⟩, [], st⟩
    | some endDate =>
      match s.GetHistoryData req.device_id startDate endDate st with
      | ((_, some e), st1) =>
        ⟨⟨StatusInternalServerError, Body.failure e⟩,
          [Call.history req.device_id startDate endDate], st1⟩
      | ((data, none), st1) =>
        ⟨⟨StatusOK, Body.records data⟩, [Call.history req.device_id startDate endDate], st1⟩

/-- Method `(*Server).GetAverageData`; `req.stop` is the query parameter `end`. -/
def Server.GetAverageData {σ : Type} (lib : Stdlib) (s : Service σ) (req : Request) (st : σ) :
    Served σ :=
  match lib.parseRFC3339 req.start with
  | none => ⟨⟨StatusBadRequest, Body.text "Invalid start date format"⟩, [], st⟩
  | some startDate =>
    match lib.parseRFC3339 req.stop with
    | none => ⟨⟨StatusBadRequest, Body.text "Invalid end date format"⟩, [], st⟩
    | some endDate =>
      match s.GetAverageData req.device_id startDate endDate st with
      | ((_, some e), st1) =>
        ⟨⟨StatusInternalServerError, Body.failure e⟩,
          [Call.average req.device_id startDate endDate], st1⟩
      | ((data, none), st1) =>
        ⟨⟨StatusOK, Body.average data⟩, [Call.average req.device_id startDate endDate], st1⟩

/-! ## Sample data -/

/-- The value of `2024-01-01T00:00:00Z`. -/
def sampleInstant : Time := ⟨63839664000000000000, 0⟩

/-- The value of `2024-01-01T07:00:00+07:00`: the instant of `sampleInstant`, shown seven
hours east of UTC. -/
def sampleInstantEast : Time := ⟨63839664000000000000, 25200⟩

/-- Folding of the ASCII letters of a key to lower case. -/
def foldAscii (key : String) : String := String.mk (key.toList.map Char.toLower)

/-- A library whose decoder matches keys exactly, whose parsers know two timestamps and whose
`ParseFloat` is exact; the numerals of the samples all denote `float64` values. -/
def sampleLib : Stdlib :=
  { foldName := fun key => key
    unmarshalTime := fun t =>
      if t = "2024-01-01T00:00:00Z" then some sampleInstant
      else if t = "2024-01-01T07:00:00+07:00" then some sampleInstantEast else none
    parseRFC3339 := fun t =>
      if t = "2024-01-01T00:00:00Z" then some sampleInstant
      else if t = "2024-01-01T07:00:00+07:00" then some sampleInstantEast else none
    parseFloat := fun q => some q }

/-- The library `sampleLib` with a decoder that also matches keys ignoring ASCII case. -/
def foldingLib : Stdlib := { sampleLib with foldName := foldAscii }

/-- Nearest integer, halves to the even neighbour. -/
def roundHalfEven (q : ℚ) : ℤ :=
  if q - ⌊q⌋ < 1 / 2 then ⌊q⌋
  else if 1 / 2 < q - ⌊q⌋ then ⌊q⌋ + 1
  else if ⌊q⌋ % 2 = 0 then ⌊q⌋ else ⌊q⌋ + 1

/-- A number cut to 15 significant decimal digits. -/
def significant15 (v : ℚ) : ℚ :=
  if v = 0 then 0
  else (roundHalfEven (v / (10 : ℚ) ^ (Int.log 10 |v| - 14)) : ℚ)
    * (10 : ℚ) ^ (Int.log 10 |v| - 14)

/-- An engine whose `AVG` is the exact mean and whose cast to `numeric` keeps 15 significant
digits; the sums and means of the samples are all `float8` values. -/
def sampleEngine : Engine :=
  { avgFloat8 := fun x rest => Except.ok ((x + rest.sum) / (rest.length + 1))
    float8ToNumeric := significant15 }

/-- The configured topic of the samples. -/
def sampleTopic : String := "sensors/telemetry"

/-- A complete reading of device `d1`. -/
def sampleReading : DeviceData := ⟨"d1", 55, 21, sampleInstant⟩

/-- The payload that denotes `sampleReading`. -/
def samplePayload : Json :=
  Json.obj [("device_id", Json.str "d1"), ("humidity", Json.num 55),
    ("temperature", Json.num 21), ("timestamp", Json.str "2024-01-01T00:00:00Z")]

/-- The members of `samplePayload` with the key of the timestamp in upper case. -/
def sampleUpperMembers : List (String × Json) :=
  [("device_id", Json.str "d1"), ("humidity", Json.num 55),
    ("temperature", Json.num 21), ("TIMESTAMP", Json.str "2024-01-01T00:00:00Z")]

/-- The reading of `samplePayload` with `humidity` 0. -/
def sampleDryReading : DeviceData := ⟨"d1", 0, 21, sampleInstant⟩

/-- The payload that denotes `sampleDryReading`. -/
def sampleDryPayload : Json :=
  Json.obj [("device_id", Json.str "d1"), ("humidity", Json.num 0),
    ("temperature", Json.num 21), ("timestamp", Json.str "2024-01-01T00:00:00Z")]

/-- Members of a payload without a timestamp. -/
def sampleUndatedMembers : List (String × Json) :=
  [("device_id", Json.str "d1"), ("humidity", Json.num 55), ("temperature", Json.num 21)]

/-- The row that `InsertDeviceData` stores for `sampleReading`. -/
def sampleRow : Row := ⟨"d1", 55, 21, 63839664000000000⟩

/-- A row of device `d1`. -/
def tieA : Row := ⟨"d1", 40, 20, 5⟩

/-- Second row of device `d1` with the timestamp of `tieA`. -/
def tieB : Row := ⟨"d1", 50, 22, 5⟩

/-- A row of device `d2`. -/
def other : Row := ⟨"d2", 60, 25, 7⟩

/-- Decoding a member into a field other than `Timestamp` leaves `Timestamp` as it was. -/
theorem setField_timestamp_untouched (lib : Stdlib) (data data1 : DeviceData) (f : Field)
    (v : Json) (hf : f ≠ Field.timestamp) (h : setField lib data f v = Except.ok data1) :
    data1.Timestamp = data.Timestamp := by
  cases f <;> cases v <;> simp [setField] at h hf <;>
    first
    | (subst h; rfl)
    | (split at h
       · simp at h
         subst h
         rfl
       · simp at h)

/-- A key that neither equals the tag `timestamp` nor folds to it never selects the field
`Timestamp`. -/
theorem findField_ne_timestamp (lib : Stdlib) (key : String) (hne : key ≠ "timestamp")
    (hfold : lib.foldName key ≠ lib.foldName "timestamp") :
    findField lib key ≠ some Field.timestamp := by
  unfold findField
  cases hx : fieldTags.find? (fun p => p.1 == key) with
  | some p =>
    have hp := List.find?_some hx
    have hm := List.mem_of_find?_eq_some hx
    simp only [beq_iff_eq] at hp
    simp only [fieldTags, List.mem_cons, List.mem_singleton, List.not_mem_nil, or_false] at hm
    rcases hm with rfl | rfl | rfl | rfl
    · simp
    · simp
    · simp
    · exact absurd hp.symm hne
  | none =>
    cases hy : fieldTags.find? (fun p => lib.foldName p.1 == lib.foldName key) with
    | none => simp
    | some p =>
      have hp := List.find?_some hy
      have hm := List.mem_of_find?_eq_some hy
      simp only [beq_iff_eq] at hp
      simp only [fieldTags, List.mem_cons, List.mem_singleton, List.not_mem_nil, or_false] at hm
      rcases hm with rfl | rfl | rfl | rfl
      · simp
      · simp
      · simp
      · exact absurd hp.symm hfold

/-- Decoding an object none of whose keys selects `Timestamp` leaves `Timestamp` as it was. -/
theorem unmarshalObject_timestamp_untouched (lib : Stdlib) (members : List (String × Json)) :
    ∀ (data data1 : DeviceData),
      (∀ kv ∈ members, findField lib kv.1 ≠ some Field.timestamp) →
      unmarshalObject lib members data = Except.ok data1 →
      data1.Timestamp = data.Timestamp := by
  induction members with
  | nil =>
    intro data data1 _ h
    simp [unmarshalObject] at h
    rw [h]
  | cons kv rest ih =>
    intro data data1 hkeys h
    obtain ⟨k, v⟩ := kv
    have hk : findField lib k ≠ some Field.timestamp := hkeys (k, v) (List.mem_cons_self _ _)
    have hrest : ∀ kv ∈ rest, findField lib kv.1 ≠ some Field.timestamp :=
      fun kv hkv => hkeys kv (List.mem_cons_of_mem _ hkv)
    unfold unmarshalObject at h
    cases hf : findField lib k with
    | none =>
      rw [hf] at h
      exact ih data data1 hrest h
    | some f =>
      rw [hf] at h
      simp only at h
      have hft : f ≠ Field.timestamp := fun e => hk (by rw [hf, e])
      cases hs : setField lib data f v with
      | error e =>
        rw [hs] at h
        cases h
      | ok data2 =>
        rw [hs] at h
        have h1 := ih data2 data1 hrest h
        have h2 := setField_timestamp_untouched lib data data2 f v hft hs
        rw [h1, h2]

/-- Claim C1: on the configured topic, a decoded record with an empty `device_id`, or
`humidity` equal to 0, or `temperature` equal to 0, or a zero timestamp makes
`messagePubHandler` return without any call to `InsertDeviceData`, the store untouched. -/
theorem messagePubHandler_invalid_record_not_inserted {σ : Type} (lib : Stdlib)
    (s : Service σ) (mqttTopic : String) (msg : Message) (st : σ) (data : DeviceData)
    (htopic : msg.Topic = mqttTopic)
    (hdec : jsonUnmarshal lib msg.Payload DeviceData.zero = Except.ok data)
    (hbad : data.DeviceID = "" ∨ data.Humidity = 0 ∨ data.Temperature = 0
      ∨ Time.IsZero data.Timestamp = true) :
    (messagePubHandler lib s mqttTopic msg st).calls = []
      ∧ (messagePubHandler lib s mqttTopic msg st).db = st := by
  unfold messagePubHandler
  rw [if_pos htopic, hdec]
  simp only [if_pos hbad, and_self]

/-- Claim C2: on the configured topic, a decoded record with non-empty `device_id`, non-zero
`humidity`, non-zero `temperature` and non-zero timestamp is passed to `InsertDeviceData`
exactly once, whatever that call returns: the calls made are that single insert and the
final state is the state after that one call, for every implementation of the service. -/
theorem messagePubHandler_valid_record_inserted_once {σ : Type} (lib : Stdlib)
    (s : Service σ) (mqttTopic : String) (msg : Message) (st : σ) (data : DeviceData)
    (htopic : msg.Topic = mqttTopic)
    (hdec : jsonUnmarshal lib msg.Payload DeviceData.zero = Except.ok data)
    (hid : data.DeviceID ≠ "") (hhum : data.Humidity ≠ 0) (htemp : data.Temperature ≠ 0)
    (htime : Time.IsZero data.Timestamp = false) :
    (messagePubHandler lib s mqttTopic msg st).calls = [Call.insert data]
      ∧ (messagePubHandler lib s mqttTopic msg st).db = (s.InsertDeviceData data st).2 := by
  have hgood : ¬ (data.DeviceID = "" ∨ data.Humidity = 0 ∨ data.Temperature = 0
      ∨ Time.IsZero data.Timestamp = true) := by
    rintro (h | h | h | h)
    · exact hid h
    · exact hhum h
    · exact htemp h
    · rw [htime] at h
      cases h
  unfold messagePubHandler
  rw [if_pos htopic, hdec]
  simp only [if_neg hgood]
  rcases hins : s.InsertDeviceData data st with ⟨_ | e, st1⟩ <;> simp

/-- Claim C8, amended: a payload on the configured topic that is a JSON object with no key
that the decoder takes for the field `timestamp` (no key equal to the tag, and none equal
to it under the case folding of the decoder) is rejected, either by the decode error of
another member or by the required-fields check, and `InsertDeviceData` is not called. -/
theorem messagePubHandler_missing_timestamp_rejected {σ : Type} (lib : Stdlib)
    (s : Service σ) (mqttTopic : String) (members : List (String × Json)) (st : σ)
    (hlack : ∀ kv ∈ members,
      kv.1 ≠ "timestamp" ∧ lib.foldName kv.1 ≠ lib.foldName "timestamp") :
    (messagePubHandler lib s mqttTopic ⟨mqttTopic, some (Json.obj members)⟩ st).calls = []
      ∧ (messagePubHandler lib s mqttTopic ⟨mqttTopic, some (Json.obj members)⟩ st).db = st
      ∧ ((messagePubHandler lib s mqttTopic ⟨mqttTopic, some (Json.obj members)⟩ st).logs
            = [LogLine.received, LogLine.missingFields]
          ∨ ∃ e, (messagePubHandler lib s mqttTopic ⟨mqttTopic, some (Json.obj members)⟩ st).logs
            = [LogLine.received, LogLine.unmarshalError e]) := by
  have hkeys : ∀ kv ∈ members, findField lib kv.1 ≠ some Field.timestamp :=
    fun kv hkv => findField_ne_timestamp lib kv.1 (hlack kv hkv).1 (hlack kv hkv).2
  unfold messagePubHandler
  simp only [if_true, jsonUnmarshal]
  cases hdec : unmarshalObject lib members DeviceData.zero with
  | error e => exact ⟨rfl, rfl, Or.inr ⟨e, rfl⟩⟩
  | ok data =>
    have hts : data.Timestamp = DeviceData.zero.Timestamp :=
      unmarshalObject_timestamp_untouched lib members DeviceData.zero data hkeys hdec
    have hbad : data.DeviceID = "" ∨ data.Humidity = 0 ∨ data.Temperature = 0
        ∨ Time.IsZero data.Timestamp = true := by
      right; right; right
      rw [hts]
      rfl
    simp [if_pos hbad]

/-- Claim C9: a message whose topic is not the configured topic makes `messagePubHandler`
call no method of the storage service, whatever its payload; the store is untouched. -/
theorem messagePubHandler_other_topic_no_storage_call {σ : Type} (lib : Stdlib)
    (s : Service σ) (mqttTopic : String) (msg : Message) (st : σ)
    (htopic : msg.Topic ≠ mqttTopic) :
    (messagePubHandler lib s mqttTopic msg st).calls = []
      ∧ (messagePubHandler lib s mqttTopic msg st).db = st := by
  unfold messagePubHandler
  rw [if_neg htopic]
  exact ⟨rfl, rfl⟩

/-! ## Properties of the range handlers -/

/-- The scan loop returns the scanned rows of the result set, in order. -/
theorem scanRows_eq (rows : List Row) : scanRows rows = rows.map scanRow := by
  have h : ∀ (l : List Row) (acc : List DeviceData),
      l.foldl (fun data row => data ++ [scanRow row]) acc = acc ++ l.map scanRow := by
    intro l
    induction l with
    | nil => intro acc; simp
    | cons x xs ih => intro acc; simp [List.foldl_cons, ih]
  simpa [scanRows] using h rows []

/-- Different rows scan to different records. -/
theorem scanRow_injective : Function.Injective scanRow := by
  intro a b h
  cases a
  cases b
  simp only [scanRow, Time.ofTimestamp, DeviceData.mk.injEq, Time.mk.injEq] at h
  obtain ⟨h1, h2, h3, h4, _⟩ := h
  have h5 := Int.eq_of_mul_eq_mul_right (by decide) h4
  simp [h1, h2, h3, h5]

/-- The `WHERE` clause holds exactly for the rows of the device whose timestamp lies between
the two parameter values, both included. -/
theorem whereDeviceBetween_iff (p1 : String) (p2 p3 : Int) (row : Row) :
    whereDeviceBetween p1 p2 p3 row = true ↔
      row.device_id = p1 ∧ p2 ≤ row.timestamp ∧ row.timestamp ≤ p3 := by
  simp [whereDeviceBetween, between]

/-- On a reachable store `GetHistoryData` returns the scanned selection and no error. -/
theorem GetHistoryData_holding (rows : List Row) (d : String) (t0 t1 : Time) :
    (service.GetHistoryData d t0 t1 (DB.holding rows)).1
      = ((selectHistory d (sqlTimestamp t0) (sqlTimestamp t1) rows).map scanRow, none) := by
  simp [service.GetHistoryData, querySelect, DB.send, DB.holding, scanRows_eq]

/-- On a reachable store `GetLatestData` returns the scanned selection and no error. -/
theorem GetLatestData_holding (rows : List Row) :
    (service.GetLatestData (DB.holding rows)).1
      = some ((selectLatest rows).map scanRow, none) := by
  simp [service.GetLatestData, execCreateTable, querySelect, DB.send, DB.holding, scanRows_eq]

/-- Claim C3, amended: on a reachable store holding `rows`, `GetHistoryData d t0 t1` succeeds
and returns exactly the stored records of device `d` whose stored timestamp lies between
the wall-clock readings of `t0` and `t1` (each taken in the zone of the bound, cut to whole
microseconds), both ends included, each as many times as it is stored.  For bounds in UTC
with `t0` on a whole microsecond these are exactly the stored records of `d` with
`t0 ≤ timestamp ≤ t1`. -/
theorem GetHistoryData_wall_clock_window (rows : List Row) (d : String) (t0 t1 : Time) :
    ∃ res, (service.GetHistoryData d t0 t1 (DB.holding rows)).1 = (res, none)
      ∧ (∀ r, r ∈ res ↔ ∃ row ∈ rows, scanRow row = r ∧ row.device_id = d
          ∧ sqlTimestamp t0 ≤ row.timestamp ∧ row.timestamp ≤ sqlTimestamp t1)
      ∧ (∀ row, row.device_id = d → sqlTimestamp t0 ≤ row.timestamp →
          row.timestamp ≤ sqlTimestamp t1 → res.count (scanRow row) = rows.count row)
      ∧ (∀ row ∈ rows, row.device_id = d → sqlTimestamp t0 ≤ sqlTimestamp t1 →
          row.timestamp = sqlTimestamp t0 ∨ row.timestamp = sqlTimestamp t1 →
          scanRow row ∈ res)
      ∧ (t0.offset = 0 → t1.offset = 0 → t0.instant % 1000 = 0 →
          ∀ r, r ∈ res ↔ (∃ row ∈ rows, scanRow row = r) ∧ r.DeviceID = d
            ∧ t0.instant ≤ r.Timestamp.instant ∧ r.Timestamp.instant ≤ t1.instant) := by
  have hmem : ∀ r, r ∈ (selectHistory d (sqlTimestamp t0) (sqlTimestamp t1) rows).map scanRow ↔
      ∃ row ∈ rows, scanRow row = r ∧ row.device_id = d
        ∧ sqlTimestamp t0 ≤ row.timestamp ∧ row.timestamp ≤ sqlTimestamp t1 := by
    intro r
    simp only [selectHistory, List.mem_map, List.mem_filter, whereDeviceBetween_iff]
    constructor
    · rintro ⟨row, ⟨hrow, hw⟩, hs⟩
      exact ⟨row, hrow, hs, hw⟩
    · rintro ⟨row, hrow, hs, hw⟩
      exact ⟨row, ⟨hrow, hw⟩, hs⟩
  refine ⟨_, GetHistoryData_holding rows d t0 t1, hmem, ?_, ?_, ?_⟩
  · intro row hd h0 h1
    have hp : whereDeviceBetween d (sqlTimestamp t0) (sqlTimestamp t1) row = true :=
      (whereDeviceBetween_iff d _ _ row).2 ⟨hd, h0, h1⟩
    rw [List.count_map_of_injective _ _ scanRow_injective]
    simp only [selectHistory]
    exact List.count_filter hp
  · intro row hrow hd h01 ht
    refine (hmem _).2 ⟨row, hrow, rfl, hd, ?_⟩
    rcases ht with ht | ht
    · rw [ht]
      exact ⟨le_refl _, h01⟩
    · rw [ht]
      exact ⟨h01, le_refl _⟩
  · intro ho0 ho1 hmicro r
    rw [hmem r]
    have e0 : ∀ ts : Int, sqlTimestamp t0 ≤ ts ↔ t0.instant ≤ ts * 1000 := by
      intro ts
      simp only [sqlTimestamp, ho0]
      omega
    have e1 : ∀ ts : Int, ts ≤ sqlTimestamp t1 ↔ ts * 1000 ≤ t1.instant := by
      intro ts
      simp only [sqlTimestamp, ho1]
      omega
    constructor
    · rintro ⟨row, hrow, rfl, hd, h0, h1⟩
      exact ⟨⟨row, hrow, rfl⟩, hd, (e0 _).1 h0, (e1 _).1 h1⟩
    · rintro ⟨⟨row, hrow, rfl⟩, hd, h0, h1⟩
      exact ⟨row, hrow, rfl, hd, (e0 _).2 h0, (e1 _).2 h1⟩

/-- Claim C3, as stated, fails: the stored record of `sampleReading` has the instant of the
bounds `2024-01-01T07:00:00+07:00`, so it satisfies `t0 ≤ timestamp ≤ t1`, yet
`GetHistoryData` with these bounds returns no record, because the bounds reach the query as
the wall-clock reading 07:00:00. -/
theorem GetHistoryData_offset_bounds_miss_record :
    (service.InsertDeviceData sampleReading (DB.holding [])).2.device_data = some [sampleRow]
      ∧ (scanRow sampleRow).DeviceID = "d1"
      ∧ sampleInstantEast.instant ≤ (scanRow sampleRow).Timestamp.instant
      ∧ (scanRow sampleRow).Timestamp.instant ≤ sampleInstantEast.instant
      ∧ (service.GetHistoryData "d1" sampleInstantEast sampleInstantEast
          (DB.holding [sampleRow])).1 = ([], none) :=
  ⟨by decide, by decide, by decide, by decide, by decide⟩

/-- Rows in sort order have their device ids in non-decreasing text order. -/
theorem orderBy_rel_deviceID {a b : Row} (h : orderByDeviceTimestampDesc a b) :
    a.device_id.toList ≤ b.device_id.toList := by
  rcases h with h | ⟨h, _⟩
  · exact le_of_lt h
  · rw [h]

/-- Rows of one device in sort order have non-increasing timestamps. -/
theorem orderBy_rel_timestamp {a b : Row} (h : orderByDeviceTimestampDesc a b)
    (hid : b.device_id = a.device_id) : b.timestamp ≤ a.timestamp := by
  rcases h with h | ⟨_, h⟩
  · rw [hid] at h
    exact absurd h (lt_irrefl _)
  · exact h

/-- Any two rows are comparable in the sort order. -/
theorem orderBy_total : IsTotal Row orderByDeviceTimestampDesc where
  total a b := by
    unfold orderByDeviceTimestampDesc
    rcases lt_trichotomy a.device_id.toList b.device_id.toList with h | h | h
    · exact Or.inl (Or.inl h)
    · have hid : a.device_id = b.device_id := String.ext h
      rcases le_total a.timestamp b.timestamp with ht | ht
      · exact Or.inr (Or.inr ⟨hid.symm, ht⟩)
      · exact Or.inl (Or.inr ⟨hid, ht⟩)
    · exact Or.inr (Or.inl h)

/-- The sort order is transitive. -/
theorem orderBy_trans : IsTrans Row orderByDeviceTimestampDesc where
  trans a b c hab hbc := by
    unfold orderByDeviceTimestampDesc at *
    rcases hab with hab | ⟨hab, tab⟩
    · rcases hbc with hbc | ⟨hbc, _⟩
      · exact Or.inl (lt_trans hab hbc)
      · rw [hbc] at hab
        exact Or.inl hab
    · rcases hbc with hbc | ⟨hbc, tbc⟩
      · rw [← hab] at hbc
        exact Or.inl hbc
      · exact Or.inr ⟨hab.trans hbc, le_trans tbc tab⟩

/-- The `ORDER BY` step rearranges the rows and nothing else. -/
theorem orderBy_perm (rows : List Row) : (orderBy rows).Perm rows :=
  List.perm_insertionSort _ rows

/-- The `ORDER BY` step delivers the rows in sort order. -/
theorem orderBy_sorted (rows : List Row) :
    (orderBy rows).Pairwise orderByDeviceTimestampDesc :=
  @List.sorted_insertionSort _ orderByDeviceTimestampDesc _ orderBy_total orderBy_trans rows

/-- Over rows in sort order whose ids are not below `prev`, every row emitted by
`distinctOn` is one of the rows, has an id above `prev`, and carries the greatest timestamp
among the rows of its device. -/
theorem distinctOn_emits_latest (l : List Row) :
    ∀ (prev : Option String), l.Pairwise orderByDeviceTimestampDesc →
      (∀ p, prev = some p → ∀ b ∈ l, p.toList ≤ b.device_id.toList) →
      ∀ r ∈ distinctOn prev l,
        r ∈ l ∧ (∀ p, prev = some p → p.toList < r.device_id.toList)
          ∧ ∀ r1 ∈ l, r1.device_id = r.device_id → r1.timestamp ≤ r.timestamp := by
  induction l with
  | nil =>
    intro prev _ _ r hr
    simp [distinctOn] at hr
  | cons b rest ih =>
    intro prev hpw hprev r hr
    rw [List.pairwise_cons] at hpw
    obtain ⟨hb, hrestpw⟩ := hpw
    unfold distinctOn at hr
    by_cases hc : prev = some b.device_id
    · rw [if_pos hc] at hr
      have hprev1 : ∀ p, prev = some p → ∀ x ∈ rest, p.toList ≤ x.device_id.toList :=
        fun p hp x hx => hprev p hp x (List.mem_cons_of_mem _ hx)
      obtain ⟨hmem, habove, hmax⟩ := ih prev hrestpw hprev1 r hr
      refine ⟨List.mem_cons_of_mem _ hmem, habove, ?_⟩
      intro r1 hr1 hid
      rcases List.mem_cons.1 hr1 with rfl | hr1
      · have hlt := habove _ hc
        rw [hid] at hlt
        exact absurd hlt (lt_irrefl _)
      · exact hmax r1 hr1 hid
    · rw [if_neg hc] at hr
      rcases List.mem_cons.1 hr with rfl | hr
      · refine ⟨List.mem_cons_self _ _, ?_, ?_⟩
        · intro p hp
          have hle := hprev p hp r (List.mem_cons_self _ _)
          have hne : p.toList ≠ r.device_id.toList := by
            intro he
            apply hc
            rw [hp, String.ext he]
          exact lt_of_le_of_ne hle hne
        · intro r1 hr1 hid
          rcases List.mem_cons.1 hr1 with rfl | hr1
          · exact le_refl _
          · exact orderBy_rel_timestamp (hb r1 hr1) hid
      · have hprev1 : ∀ p, some b.device_id = some p →
            ∀ x ∈ rest, p.toList ≤ x.device_id.toList := by
          intro p hp x hx
          cases hp
          exact orderBy_rel_deviceID (hb x hx)
        obtain ⟨hmem, habove, hmax⟩ := ih (some b.device_id) hrestpw hprev1 r hr
        have hbr : b.device_id.toList < r.device_id.toList := habove _ rfl
        refine ⟨List.mem_cons_of_mem _ hmem, ?_, ?_⟩
        · intro p hp
          exact lt_of_le_of_lt (hprev p hp b (List.mem_cons_self _ _)) hbr
        · intro r1 hr1 hid
          rcases List.mem_cons.1 hr1 with rfl | hr1
          · rw [hid] at hbr
            exact absurd hbr (lt_irrefl _)
          · exact hmax r1 hr1 hid

/-- Every row whose id differs from `prev` has its device represented in the output of
`distinctOn`. -/
theorem distinctOn_covers (l : List Row) :
    ∀ (prev : Option String), ∀ b ∈ l, prev ≠ some b.device_id →
      ∃ r ∈ distinctOn prev l, r.device_id = b.device_id := by
  induction l with
  | nil =>
    intro prev b hb
    simp at hb
  | cons c rest ih =>
    intro prev b hb hne
    unfold distinctOn
    by_cases hc : prev = some c.device_id
    · rw [if_pos hc]
      rcases List.mem_cons.1 hb with rfl | hb
      · exact absurd hc hne
      · exact ih prev b hb hne
    · rw [if_neg hc]
      by_cases hbc : b.device_id = c.device_id
      · exact ⟨c, List.mem_cons_self _ _, hbc.symm⟩
      · rcases List.mem_cons.1 hb with rfl | hb
        · exact absurd rfl hbc
        · have hne1 : some c.device_id ≠ some b.device_id := by
            intro he
            exact hbc (Option.some.inj he).symm
          obtain ⟨r, hr, hid⟩ := ih (some c.device_id) b hb hne1
          exact ⟨r, List.mem_cons_of_mem _ hr, hid⟩

/-- Every row of the latest-per-device selection is a stored row carrying the greatest
timestamp among the stored rows of its device. -/
theorem selectLatest_latest (rows : List Row) :
    ∀ r ∈ selectLatest rows,
      r ∈ rows ∧ ∀ r1 ∈ rows, r1.device_id = r.device_id → r1.timestamp ≤ r.timestamp := by
  intro r hr
  have h := distinctOn_emits_latest (orderBy rows) none (orderBy_sorted rows)
    (fun p hp => by cases hp) r hr
  refine ⟨(orderBy_perm rows).mem_iff.1 h.1, ?_⟩
  intro r1 hr1 hid
  exact h.2.2 r1 ((orderBy_perm rows).mem_iff.2 hr1) hid

/-- Every device with a stored row has a row in the latest-per-device selection. -/
theorem selectLatest_covers (rows : List Row) :
    ∀ b ∈ rows, ∃ r ∈ selectLatest rows, r.device_id = b.device_id := by
  intro b hb
  exact distinctOn_covers (orderBy rows) none b ((orderBy_perm rows).mem_iff.2 hb)
    (fun h => by cases h)

/-- Claim C10, as stated, fails: two tables holding the same two rows of device `d1`, both
at its greatest timestamp, in opposite storage order make `GetLatestData` return different
records for `d1`. -/
theorem GetLatestData_tie_follows_storage_order :
    [tieA, tieB].Perm [tieB, tieA]
      ∧ tieA.device_id = tieB.device_id ∧ tieA.timestamp = tieB.timestamp
      ∧ (service.GetLatestData (DB.holding [tieA, tieB])).1 = some ([scanRow tieA], none)
      ∧ (service.GetLatestData (DB.holding [tieB, tieA])).1 = some ([scanRow tieB], none)
      ∧ scanRow tieA ≠ scanRow tieB :=
  ⟨List.Perm.swap tieB tieA [], by decide, by decide, by decide, by decide, by decide⟩

/-- Claim C10, amended: on two reachable stores holding the same rows in different storage
order, `GetLatestData` succeeds on both and every record returned on the first has a
counterpart on the second with the same device id and the same timestamp; when the device
has a single stored row at that timestamp the counterpart is that very record. -/
theorem GetLatestData_same_latest_timestamp_across_orders (rows1 rows2 : List Row)
    (hperm : rows1.Perm rows2) :
    ∃ res1 res2, (service.GetLatestData (DB.holding rows1)).1 = some (res1, none)
      ∧ (service.GetLatestData (DB.holding rows2)).1 = some (res2, none)
      ∧ ∀ r1 ∈ res1, ∃ r2 ∈ res2,
          r2.DeviceID = r1.DeviceID ∧ r2.Timestamp = r1.Timestamp
          ∧ ((∀ row ∈ rows1, (scanRow row).DeviceID = r1.DeviceID →
                (scanRow row).Timestamp = r1.Timestamp → scanRow row = r1)
              → r2 = r1) := by
  refine ⟨(selectLatest rows1).map scanRow, (selectLatest rows2).map scanRow,
    GetLatestData_holding rows1, GetLatestData_holding rows2, ?_⟩
  intro r1 hr1
  obtain ⟨a, ha, rfl⟩ := List.mem_map.1 hr1
  obtain ⟨hmem1, hmax1⟩ := selectLatest_latest rows1 a ha
  obtain ⟨b, hb, hid⟩ := selectLatest_covers rows2 a (hperm.mem_iff.1 hmem1)
  obtain ⟨hmem2, hmax2⟩ := selectLatest_latest rows2 b hb
  have hmem21 : b ∈ rows1 := hperm.mem_iff.2 hmem2
  have hts : b.timestamp = a.timestamp :=
    le_antisymm (hmax1 b hmem21 hid) (hmax2 a (hperm.mem_iff.1 hmem1) hid.symm)
  refine ⟨scanRow b, List.mem_map_of_mem _ hb, hid, ?_, ?_⟩
  · simp only [scanRow, hts]
  · intro huniq
    exact huniq b hmem21 hid (by simp only [scanRow, hts])

/-! ## The properties at sample data -/

/-- Claim C8, as stated, fails: the members of `sampleUpperMembers` have no key `timestamp`,
yet a decoder that matches keys ignoring case, as `encoding/json` does, takes the key
`TIMESTAMP` for the field and the handler inserts the record. -/
theorem messagePubHandler_uppercase_timestamp_key_inserted :
    (∀ kv ∈ sampleUpperMembers, kv.1 ≠ "timestamp")
      ∧ (messagePubHandler foldingLib (service.asService foldingLib sampleEngine) sampleTopic
          ⟨sampleTopic, some (Json.obj sampleUpperMembers)⟩ (DB.holding [])).calls
          = [Call.insert sampleReading]
      ∧ (messagePubHandler foldingLib (service.asService foldingLib sampleEngine) sampleTopic
          ⟨sampleTopic, some (Json.obj sampleUpperMembers)⟩ (DB.holding [])).db.device_data
          = some [sampleRow] :=
  ⟨by decide, by decide, by decide⟩

/-- Claim C1 at a payload whose `humidity` is 0. -/
theorem messagePubHandler_invalid_record_not_inserted_sample :
    (messagePubHandler sampleLib (service.asService sampleLib sampleEngine) sampleTopic
        ⟨sampleTopic, some sampleDryPayload⟩ (DB.holding [])).calls = []
      ∧ (messagePubHandler sampleLib (service.asService sampleLib sampleEngine) sampleTopic
        ⟨sampleTopic, some sampleDryPayload⟩ (DB.holding [])).db = DB.holding [] :=
  messagePubHandler_invalid_record_not_inserted sampleLib
    (service.asService sampleLib sampleEngine) sampleTopic
    ⟨sampleTopic, some sampleDryPayload⟩ (DB.holding []) sampleDryReading rfl rfl
    (Or.inr (Or.inl rfl))

/-- Claim C2 at a complete reading, against a store whose next statement fails. -/
theorem messagePubHandler_valid_record_inserted_once_sample :
    (messagePubHandler sampleLib (service.asService sampleLib sampleEngine) sampleTopic
        ⟨sampleTopic, some samplePayload⟩ ⟨[true], some []⟩).calls
        = [Call.insert sampleReading]
      ∧ (messagePubHandler sampleLib (service.asService sampleLib sampleEngine) sampleTopic
        ⟨sampleTopic, some samplePayload⟩ ⟨[true], some []⟩).db
        = ((service.asService sampleLib sampleEngine).InsertDeviceData sampleReading
            ⟨[true], some []⟩).2 :=
  messagePubHandler_valid_record_inserted_once sampleLib
    (service.asService sampleLib sampleEngine) sampleTopic
    ⟨sampleTopic, some samplePayload⟩ ⟨[true], some []⟩ sampleReading rfl rfl
    (by decide) (by decide) (by decide) (by decide)

/-- Claim C8, amended, at a payload with the three other fields and no timestamp, under the
decoder that matches keys ignoring case. -/
theorem messagePubHandler_missing_timestamp_rejected_sample :
    (messagePubHandler foldingLib (service.asService foldingLib sampleEngine) sampleTopic
        ⟨sampleTopic, some (Json.obj sampleUndatedMembers)⟩ (DB.holding [])).calls = []
      ∧ (messagePubHandler foldingLib (service.asService foldingLib sampleEngine) sampleTopic
        ⟨sampleTopic, some (Json.obj sampleUndatedMembers)⟩ (DB.holding [])).db = DB.holding []
      ∧ ((messagePubHandler foldingLib (service.asService foldingLib sampleEngine) sampleTopic
            ⟨sampleTopic, some (Json.obj sampleUndatedMembers)⟩ (DB.holding [])).logs
            = [LogLine.received, LogLine.missingFields]
          ∨ ∃ e, (messagePubHandler foldingLib (service.asService foldingLib sampleEngine)
            sampleTopic ⟨sampleTopic, some (Json.obj sampleUndatedMembers)⟩
            (DB.holding [])).logs = [LogLine.received, LogLine.unmarshalError e]) :=
  messagePubHandler_missing_timestamp_rejected foldingLib
    (service.asService foldingLib sampleEngine) sampleTopic
    sampleUndatedMembers (DB.holding []) (by decide)

/-- Claim C9 at a complete reading published on another topic. -/
theorem messagePubHandler_other_topic_no_storage_call_sample :
    (messagePubHandler sampleLib (service.asService sampleLib sampleEngine) sampleTopic
        ⟨"sensors/other", some samplePayload⟩ (DB.holding [])).calls = []
      ∧ (messagePubHandler sampleLib (service.asService sampleLib sampleEngine) sampleTopic
        ⟨"sensors/other", some samplePayload⟩ (DB.holding [])).db = DB.holding [] :=
  messagePubHandler_other_topic_no_storage_call sampleLib
    (service.asService sampleLib sampleEngine) sampleTopic
    ⟨"sensors/other", some samplePayload⟩ (DB.holding []) (by decide)

/-- Claim C10, amended, at two storage orders of one table with a tie on `d1`. -/
theorem GetLatestData_same_latest_timestamp_across_orders_sample :
    ∃ res1 res2, (service.GetLatestData (DB.holding [tieA, tieB, other])).1 = some (res1, none)
      ∧ (service.GetLatestData (DB.holding [tieB, tieA, other])).1 = some (res2, none)
      ∧ ∀ r1 ∈ res1, ∃ r2 ∈ res2,
          r2.DeviceID = r1.DeviceID ∧ r2.Timestamp = r1.Timestamp
          ∧ ((∀ row ∈ [tieA, tieB, other], (scanRow row).DeviceID = r1.DeviceID →
                (scanRow row).Timestamp = r1.Timestamp → scanRow row = r1)
              → r2 = r1) :=
  GetLatestData_same_latest_timestamp_across_orders [tieA, tieB, other] [tieB, tieA, other]
    (List.Perm.swap tieB tieA [other])

end MqttBackend
